import Mathlib

/-!
Verification development for the track-my-jobs email-processing pipeline.

The embedding below follows the TypeScript source:
* `WebLLMWorker` (the RPC channel over a web worker, and the three adapter
  operations `classify`, `extractJobData`, `determineStatus`);
* `EmailProcessingApp` (the per-email stage graph
  classifyEmail -> extractJobData -> checkFirstInstance -> determineStatus
  -> finalizeResult, with one conditional branch after classifyEmail, and
  the batch driver `processEmailsChronologically`).

Inference responses are abstracted as oracle values of type
`Except String JSVal`: `Except.ok v` is a worker response `{id, result: v}`
and `Except.error e` is a response `{id, error: e}`, a timeout, or any
other rejection of the dispatched request.  JavaScript values that can
reach the pipeline are modelled by `JSVal`; record fields hold
`Option String` where `none` stands for an absent (undefined) property.
JSON null field values are collapsed to absent fields.  Timestamps are
modelled as natural numbers standing for `new Date(s).getTime()` of the
stored date string.
-/

namespace TrackMyJobs

/-! ### RPC channel (WebLLMWorker pending-request table)

State of the correlation table of `WebLLMWorker`: the set of pending
correlation ids, plus a log of every resolution that has happened.  The
source stores promise handles in a `Map`; resolving a handle corresponds
to recording a `Resolution` in the log.  Events:

* `dispatch` models `postMessage` registering a fresh id (source lines
  354-387);
* `respond` models `handleWorkerMessage` receiving `{id, result|error}`
  (source lines 331-352): a pending id is removed and resolved, an
  unknown id is logged to the console and discarded;
* `timeoutFire` models the 60000 ms `setTimeout` callback deleting the
  entry and rejecting; the stored handles clear the timer on resolution,
  so the timer can only fire while the id is still pending;
* `workerFatal` models `worker.onerror` calling `rejectAllPending`,
  which rejects every pending handle and clears the table.

Progress messages (`{progress}` responses) return before the table is
consulted and are therefore not events of the table. -/

inductive Resolution where
  | success
  | error
  | timeout
deriving DecidableEq, Repr

structure ChanState where
  pending : List String
  log : List (String × Resolution)
deriving DecidableEq, Repr

def initChan : ChanState := ⟨[], []⟩

inductive ChanEvent where
  | dispatch (id : String)
  | respond (id : String) (isError : Bool)
  | timeoutFire (id : String)
  | workerFatal
deriving DecidableEq, Repr

def chanStep (s : ChanState) : ChanEvent → ChanState
  | .dispatch id => { s with pending := id :: s.pending }
  | .respond id isError =>
      if id ∈ s.pending then
        { pending := s.pending.erase id,
          log := s.log ++ [(id, if isError then .error else .success)] }
      else
        s
  | .timeoutFire id =>
      if id ∈ s.pending then
        { pending := s.pending.erase id, log := s.log ++ [(id, .timeout)] }
      else
        s
  | .workerFatal =>
      { pending := [], log := s.log ++ s.pending.map (fun id => (id, Resolution.error)) }

def chanRun (tr : List ChanEvent) : ChanState := tr.foldl chanStep initChan

/-- The correlation ids dispatched over the course of a trace. -/
def dispatches : List ChanEvent → List String
  | [] => []
  | .dispatch id :: tr => id :: dispatches tr
  | _ :: tr => dispatches tr

/-- How many times a given correlation id has been resolved. -/
def resolutionCount (s : ChanState) (id : String) : Nat :=
  s.log.countP (fun p => p.1 == id)

/-! ### JavaScript value model -/

/-- The extracted job record: the JSON object returned by the extract
operation.  Only the two fields consulted by the pipeline are kept;
`none` stands for an absent property (undefined). -/
structure JobData where
  company_name : Option String
  job_title : Option String
deriving DecidableEq, Repr

/-- JavaScript values that can flow out of the worker into the pipeline
state. -/
inductive JSVal where
  | bool (b : Bool)
  | str (s : String)
  | num (n : Int)
  | null
  | obj (j : JobData)
deriving DecidableEq, Repr

/-- JavaScript truthiness of a value (`undefined` is collapsed into
`null`). -/
def JSVal.truthy : JSVal → Bool
  | .bool b => b
  | .str s => !(s == "")
  | .num n => !(n == 0)
  | .null => false
  | .obj _ => true

/-- Property access `v.company_name`: `none` is undefined (also for
non-object values). -/
def JSVal.prop_company : JSVal → Option String
  | .obj j => j.company_name
  | _ => none

/-- Property access `v.job_title`. -/
def JSVal.prop_title : JSVal → Option String
  | .obj j => j.job_title
  | _ => none

/-- Truthiness of a string-valued property: absent or empty is falsy. -/
def jsStrTruthy : Option String → Bool
  | some s => !(s == "")
  | none => false

/-- Template interpolation of a possibly absent string, as in
a JavaScript template literal: an undefined value prints "undefined". -/
def jsTemplate : Option String → String
  | some s => s
  | none => "undefined"

/-- The record behind a value known to be an object (used where the
source has already checked `company_name` is truthy, which only objects
can satisfy). -/
def JSVal.asObj : JSVal → JobData
  | .obj j => j
  | _ => { company_name := none, job_title := none }

/-- Truthiness of an optional boolean (`state.isJobRelated ? ... : ...`
and `finalState.isJobRelated || false`). -/
def optTruthy : Option Bool → Bool
  | some b => b
  | none => false

/-! ### Application registry -/

/-- One entry of the known-applications map.  Creation spreads the
extracted record and then sets the explicit fields (source lines
146-152); `current_status` is only set later by determineStatus. -/
structure AppEntry where
  jobData : JobData
  first_seen : Nat
  status_history : List String
  email_count : Nat
  current_status : Option String
deriving DecidableEq, Repr

/-- The known-applications map, as an insertion-ordered association
list mirroring a JavaScript object. -/
abbrev Registry := List (String × AppEntry)

def regGet : Registry → String → Option AppEntry
  | [], _ => none
  | p :: r, k => if p.1 == k then some p.2 else regGet r k

def regSet : Registry → String → AppEntry → Registry
  | [], k, e => [(k, e)]
  | p :: r, k, e => if p.1 == k then (k, e) :: r else p :: regSet r k e

/-- The application key, exactly as built at source lines 142 and 180:
a template literal over the raw extracted fields, with no case
normalization, falling back to "unknown" for a falsy title. -/
def appKeyOf (v : JSVal) : String :=
  jsTemplate v.prop_company ++ "_" ++
    (match v.prop_title with
      | some t => if t == "" then "unknown" else t
      | none => "unknown")

/-! ### Inference adapter (WebLLMWorker.classify / extractJobData / determineStatus)

Each adapter operation throws when the worker is not initialized (the
check precedes the try block in the source, so that error propagates to
the calling node) and otherwise consumes the channel result for its one
dispatched request.  `Except.error` on the result side models the
adapter itself throwing; the channel rejection is consumed inside the
adapter catch. -/

abbrev ChanResult := Except String JSVal

namespace WebLLMWorker

/-- Source lines 396-417: true only for the exact boolean `true` or the
exact string "YES"; any channel rejection is caught and yields false. -/
def classify (isInitialized : Bool) (r : ChanResult) : Except String Bool :=
  if !isInitialized then .error ("WebLLM Worker not initialized")
  else .ok (match r with
    | .ok v => v == .bool true || v == .str ("YES")
    | .error _ => false)

/-- Source lines 419-449: the resolved value is returned as is; any
channel rejection is caught and yields null. -/
def extractJobData (isInitialized : Bool) (r : ChanResult) : Except String JSVal :=
  if !isInitialized then .error ("WebLLM Worker not initialized")
  else .ok (match r with
    | .ok v => v
    | .error _ => .null)

def validStatuses : List String :=
  ["applied", "under_review", "interview_scheduled", "interview_completed",
   "offer_received", "offer_accepted", "rejected", "withdrawn", "pending"]

/-- Source lines 451-478: the resolved value passes only if it is one of
the nine status strings; anything else, and any channel rejection,
yields "pending". -/
def determineStatus (isInitialized : Bool) (r : ChanResult) : Except String String :=
  if !isInitialized then .error ("WebLLM Worker not initialized")
  else .ok (match r with
    | .ok (.str s) => if s ∈ validStatuses then s else "pending"
    | .ok _ => "pending"
    | .error _ => "pending")

end WebLLMWorker

/-! ### Pipeline state machine (EmailProcessingApp) -/

structure EmailData where
  id : String
  subject : String
  sender : String
  date : Nat
  body : String
deriving DecidableEq, Repr

structure PipeState where
  email : EmailData
  isJobRelated : Option Bool
  jobData : JSVal
  isFirstInstance : Option Bool
  applicationStatus : Option String
  knownApplications : Registry
  processingStage : Option String
  errors : List String
deriving DecidableEq, Repr

/-- The channel results for the (at most three) requests one email run
can dispatch. -/
structure EmailOracle where
  classifyR : ChanResult
  extractR : ChanResult
  statusR : ChanResult

namespace EmailProcessingApp

/-- Source lines 92-110. -/
def classifyEmailNode (isInitialized : Bool) (o : EmailOracle) (s : PipeState) : PipeState :=
  match WebLLMWorker.classify isInitialized o.classifyR with
  | .ok b =>
      { s with isJobRelated := some b,
               processingStage := some (if b then "extractJobData" else "finalizeResult") }
  | .error e =>
      { s with isJobRelated := some false,
               errors := s.errors ++ ["Classification failed: " ++ e],
               processingStage := some ("finalizeResult") }

/-- Source lines 112-130. -/
def extractJobDataNode (isInitialized : Bool) (o : EmailOracle) (s : PipeState) : PipeState :=
  match WebLLMWorker.extractJobData isInitialized o.extractR with
  | .ok v =>
      { s with jobData := v, processingStage := some ("checkFirstInstance") }
  | .error e =>
      { s with jobData := .null,
               errors := s.errors ++ ["Job data extraction failed: " ++ e],
               processingStage := some ("checkFirstInstance") }

/-- Source lines 132-171.  The body is pure, so the surrounding catch is
unreachable and not modelled. -/
def checkFirstInstanceNode (s : PipeState) : PipeState :=
  if !s.jobData.truthy || !(jsStrTruthy s.jobData.prop_company) then
    { s with isFirstInstance := some false, processingStage := some ("determineStatus") }
  else
    let appKey := appKeyOf s.jobData
    match regGet s.knownApplications appKey with
    | none =>
        { s with isFirstInstance := some true,
                 knownApplications := regSet s.knownApplications appKey
                   { jobData := s.jobData.asObj,
                     first_seen := s.email.date,
                     status_history := ["applied"],
                     email_count := 1,
                     current_status := none },
                 processingStage := some ("determineStatus") }
    | some e =>
        { s with isFirstInstance := some false,
                 knownApplications := regSet s.knownApplications appKey
                   { e with email_count := e.email_count + 1 },
                 processingStage := some ("determineStatus") }

/-- Source lines 173-201.  The history update at lines 179-186 is keyed
on `state.jobData && state.knownApplications`; the registry is always an
object here (always truthy), so only the truthiness of jobData is
tested.  The catch branch is reached exactly when the adapter throws
(worker not initialized). -/
def determineStatusNode (isInitialized : Bool) (o : EmailOracle) (s : PipeState) : PipeState :=
  match WebLLMWorker.determineStatus isInitialized o.statusR with
  | .ok st =>
      let reg :=
        if s.jobData.truthy then
          match regGet s.knownApplications (appKeyOf s.jobData) with
          | some e =>
              regSet s.knownApplications (appKeyOf s.jobData)
                { e with status_history := e.status_history ++ [st],
                         current_status := some st }
          | none => s.knownApplications
        else s.knownApplications
      { s with applicationStatus := some st,
               knownApplications := reg,
               processingStage := some ("finalizeResult") }
  | .error e =>
      { s with applicationStatus := some ("unknown"),
               errors := s.errors ++ ["Status determination failed: " ++ e],
               processingStage := some ("finalizeResult") }

/-- Source lines 203-210: persists the registry (a side effect outside
this model) and returns the state unchanged. -/
def finalizeResultNode (s : PipeState) : PipeState := s

/-- The compiled graph of source lines 56-89: classifyEmail, a
conditional branch on the truthiness of isJobRelated, then
extractJobData, checkFirstInstance, determineStatus, finalizeResult. -/
def runPipeline (isInitialized : Bool) (o : EmailOracle) (s0 : PipeState) : PipeState :=
  let s1 := classifyEmailNode isInitialized o s0
  if optTruthy s1.isJobRelated then
    finalizeResultNode
      (determineStatusNode isInitialized o
        (checkFirstInstanceNode (extractJobDataNode isInitialized o s1)))
  else
    finalizeResultNode s1

/-- One element of the result list built at source lines 237-244. -/
structure ProcessingOutcome where
  emailId : String
  isJobRelated : Bool
  jobData : JSVal
  isFirstInstance : Bool
  applicationStatus : String
  processingErrors : List String
deriving DecidableEq, Repr

def mkOutcome (email : EmailData) (f : PipeState) : ProcessingOutcome :=
  { emailId := email.id,
    isJobRelated := optTruthy f.isJobRelated,
    jobData := if f.jobData.truthy then f.jobData else .null,
    isFirstInstance := optTruthy f.isFirstInstance,
    applicationStatus :=
      (match f.applicationStatus with
        | some st => if st == "" then "unknown" else st
        | none => "unknown"),
    processingErrors := f.errors }

/-- The initial state built for each email at source lines 223-228. -/
def initialState (email : EmailData) (reg : Registry) : PipeState :=
  { email := email,
    isJobRelated := none,
    jobData := .null,
    isFirstInstance := none,
    applicationStatus := none,
    knownApplications := reg,
    processingStage := some ("classify"),
    errors := [] }

/-- The loop of source lines 221-256 over the already sorted list:
the registry object is shared by reference across iterations, so each
run starts from the registry the previous run left behind.  All nodes
are total, so the per-email catch at lines 246-255 is unreachable and
not modelled. -/
def processSorted (isInitialized : Bool) (oracle : EmailData → EmailOracle) :
    Registry → List EmailData → List ProcessingOutcome × Registry
  | reg, [] => ([], reg)
  | reg, e :: es =>
      let f := runPipeline isInitialized (oracle e) (initialState e reg)
      let rest := processSorted isInitialized oracle f.knownApplications es
      (mkOutcome e f :: rest.1, rest.2)

/-- Source lines 212-259: the driver first sorts the input by
`new Date(date).getTime()` ascending (line 217; the JavaScript sort is
stable, embedded as a stable merge sort), then runs the pipeline for
each email in that order. -/
def processEmailsChronologically (isInitialized : Bool) (oracle : EmailData → EmailOracle)
    (reg : Registry) (emails : List EmailData) : List ProcessingOutcome × Registry :=
  processSorted isInitialized oracle reg
    (emails.mergeSort (fun a b => decide (a.date ≤ b.date)))

end EmailProcessingApp

/-! ### Remaining definitions: channel invariant and concrete inputs -/

/-- The invariant tying a channel state to the list `ds` of ids dispatched
so far: pending ids are distinct, and for every id the number of
resolutions plus its pending multiplicity equals its dispatch
multiplicity. -/
def ChanInv (s : ChanState) (ds : List String) : Prop :=
  s.pending.Nodup ∧ ∀ id, resolutionCount s id + s.pending.count id = ds.count id

/-- A concrete event trace: one id resolved by response (with a late
duplicate response discarded), one by timeout, one by a worker-fatal
event. -/
def c1Trace : List ChanEvent :=
  [ChanEvent.dispatch ("a"), ChanEvent.respond ("a") false,
   ChanEvent.respond ("a") true, ChanEvent.dispatch ("b"),
   ChanEvent.timeoutFire ("b"), ChanEvent.dispatch ("c"),
   ChanEvent.workerFatal]

/-- A concrete email used to instantiate theorems. -/
def sampleEmail : EmailData :=
  { id := "e1", subject := "s", sender := "a@b", date := 1, body := "b" }

/-- The extracted record of the Acme/Engineer scenario. -/
def acmeJob : JSVal :=
  JSVal.obj { company_name := some ("Acme"), job_title := some ("Engineer") }

/-- First email of the concrete scenario of the spec (date 2024-01-01). -/
def acmeEmail1 : EmailData :=
  { id := "m1", subject := "", sender := "", date := 20240101, body := "" }

/-- Second email of the concrete scenario of the spec (date 2024-01-15). -/
def acmeEmail2 : EmailData :=
  { id := "m2", subject := "", sender := "", date := 20240115, body := "" }

/-- Channel behaviour for the concrete scenario: both emails classify as
job related and extract the Acme/Engineer record; the first status
determination returns "applied", the second "interview_scheduled". -/
def acmeOracle : EmailData → EmailOracle := fun e =>
  { classifyR := Except.ok (JSVal.str ("YES")),
    extractR := Except.ok acmeJob,
    statusR := Except.ok (JSVal.str
      (if e.id == "m1" then "applied" else "interview_scheduled")) }

/-- An email with the earlier timestamp. -/
def earlyEmail : EmailData :=
  { id := "early", subject := "", sender := "", date := 10, body := "" }

/-- An email with the later timestamp. -/
def lateEmail : EmailData :=
  { id := "late", subject := "", sender := "", date := 20, body := "" }

/-- A channel behaviour classifying every email as not job related. -/
def notJobOracle : EmailData → EmailOracle := fun _ =>
  { classifyR := Except.ok (JSVal.bool false), extractR := Except.ok JSVal.null,
    statusR := Except.ok JSVal.null }

/-- A registry entry for the Acme/Engineer key with one recorded status. -/
def c3Entry : AppEntry :=
  { jobData := { company_name := some ("Acme"), job_title := some ("Engineer") },
    first_seen := 1, status_history := ["applied"], email_count := 1,
    current_status := none }

/-- A pipeline state about to enter determineStatus, whose key has a
registry entry. -/
def c3State : PipeState :=
  { email := sampleEmail, isJobRelated := some true, jobData := acmeJob,
    isFirstInstance := some true, applicationStatus := none,
    knownApplications := [("Acme_Engineer", c3Entry)],
    processingStage := some ("determineStatus"), errors := [] }

/-- A channel behaviour whose status request is rejected. -/
def c3Oracle : EmailOracle :=
  { classifyR := Except.ok JSVal.null, extractR := Except.ok JSVal.null,
    statusR := Except.error ("channel error") }

/-- A channel behaviour whose classify request is rejected. -/
def c6Oracle : EmailOracle :=
  { classifyR := Except.error ("channel error"), extractR := Except.ok JSVal.null,
    statusR := Except.ok JSVal.null }

/-- A status request outcome the adapter defaults on (source lines
468-477): the request was rejected, or it resolved to a non-string, or
to a string outside the status enumeration. -/
def statusFailure : ChanResult → Prop
  | .error _ => True
  | .ok (.str t) => t ∉ WebLLMWorker.validStatuses
  | .ok _ => True

/-- A classify request outcome the adapter maps to false (source lines
412-416): the request was rejected, or it resolved to anything other
than the exact boolean true or the exact string "YES". -/
def classifyFailure : ChanResult → Prop
  | .error _ => True
  | .ok v => v ≠ JSVal.bool true ∧ v ≠ JSVal.str ("YES")

/-- A channel behaviour whose status request resolves to a string
outside the enumeration. -/
def c3OracleBad : EmailOracle :=
  { classifyR := Except.ok JSVal.null, extractR := Except.ok JSVal.null,
    statusR := Except.ok (JSVal.str ("maybe later")) }

/-- A channel behaviour whose classify request resolves to the lowercase
string "yes" (malformed output for the strict check). -/
def c6OracleBad : EmailOracle :=
  { classifyR := Except.ok (JSVal.str ("yes")), extractR := Except.ok JSVal.null,
    statusR := Except.ok JSVal.null }

/-- A state carrying the Acme/Engineer record into checkFirstInstance with
an empty registry. -/
def c2State1 : PipeState :=
  { EmailProcessingApp.initialState sampleEmail [] with jobData := acmeJob }

/-- The same record arriving again, over the registry the first pass
produced. -/
def c2State2 : PipeState :=
  { c2State1 with
    knownApplications :=
      (EmailProcessingApp.checkFirstInstanceNode c2State1).knownApplications }

/-- The Acme record with the company name upper-cased: the same company
and title as acmeJob up to case normalization, a different raw key. -/
def acmeUpperJob : JSVal :=
  JSVal.obj { company_name := some ("ACME"), job_title := some ("Engineer") }

/-- The upper-cased record arriving over the registry created for the
Acme record. -/
def c2StateUpper : PipeState :=
  { c2State2 with jobData := acmeUpperJob }

/-! ### Theorems -/

open EmailProcessingApp

/-- A value whose company_name property is truthy is an object, hence
truthy itself. -/
theorem truthy_of_company (v : JSVal) (h : jsStrTruthy v.prop_company = true) :
    v.truthy = true := by
  cases v <;> simp [JSVal.prop_company, jsStrTruthy, JSVal.truthy] at h ⊢

/-- Reading back the key just written. -/
theorem regGet_regSet_self (r : Registry) (k : String) (e : AppEntry) :
    regGet (regSet r k e) k = some e := by
  induction r with
  | nil => simp [regGet, regSet]
  | cons p r ih =>
      by_cases h : p.1 = k
      · simp [regSet, regGet, h]
      · simp [regSet, regGet, h, ih]

/-- The per-email loop emits exactly one outcome per email, carrying that
email id, in processing order. -/
theorem processSorted_map_emailId (init : Bool) (oracle : EmailData → EmailOracle)
    (reg : Registry) (l : List EmailData) :
    (processSorted init oracle reg l).1.map ProcessingOutcome.emailId
      = l.map EmailData.id := by
  induction l generalizing reg with
  | nil => rfl
  | cons e es ih => simp [processSorted, mkOutcome, ih]

/-- Claim C10: the classify operation of the adapter returns true exactly
when the resolved worker result is the boolean true or the string "YES";
the lowercase string "yes" gives false, and every rejected request gives
false. -/
theorem classify_strict_equality :
    (∀ r : ChanResult, WebLLMWorker.classify true r = Except.ok true
        ↔ (r = Except.ok (JSVal.bool true) ∨ r = Except.ok (JSVal.str ("YES"))))
  ∧ WebLLMWorker.classify true (Except.ok (JSVal.str ("yes"))) = Except.ok false
  ∧ (∀ e : String, WebLLMWorker.classify true (Except.error e) = Except.ok false) := by
  refine ⟨?_, rfl, fun e => rfl⟩
  intro r
  cases r with
  | error e => simp [WebLLMWorker.classify]
  | ok v => cases v <;> simp [WebLLMWorker.classify]

/-- Claim C8: when the extraction result is null (or lacks a truthy
company name), checkFirstInstance only sets is_first_instance to false
and moves on: the registry and every other field are left unchanged. -/
theorem checkFirstInstance_skip (s : PipeState)
    (h : s.jobData.truthy = false ∨ jsStrTruthy s.jobData.prop_company = false) :
    checkFirstInstanceNode s
      = { s with isFirstInstance := some false,
                 processingStage := some ("determineStatus") } := by
  unfold checkFirstInstanceNode
  rcases h with h | h <;> simp [h]

/-- Witness for checkFirstInstance_skip: the initial state has null job
data, and the node leaves its registry untouched. -/
theorem checkFirstInstance_skip_witness :
    ((initialState sampleEmail []).jobData.truthy = false
      ∨ jsStrTruthy (initialState sampleEmail []).jobData.prop_company = false)
  ∧ checkFirstInstanceNode (initialState sampleEmail [])
      = { initialState sampleEmail [] with
          isFirstInstance := some false,
          processingStage := some ("determineStatus") } :=
  ⟨Or.inl (by decide), checkFirstInstance_skip _ (Or.inl (by decide))⟩

/-- Claim C6 counterexample: a rejected classify request is swallowed by
the adapter, so the run short-circuits with isJobRelated false but an
EMPTY error list, contradicting the claimed non-empty error list. -/
theorem classify_failure_empty_errors :
    (runPipeline true c6Oracle (initialState sampleEmail [])).isJobRelated = some false
  ∧ (runPipeline true c6Oracle (initialState sampleEmail [])).errors = [] := by
  decide

/-- Claim C6 (amended): whenever classification fails — the classify
request is rejected, or it resolves to malformed output, that is
anything other than the exact boolean true or the exact string "YES" —
the adapter fail-softs to false without signalling any error: the run
short-circuits to Finalize with isJobRelated false, the error list
unchanged, and the extraction and status oracles never consulted (the
result does not mention them); the error list grows only when the
adapter itself throws because the worker is not initialized, which also
short-circuits. -/
theorem classify_failSoft_shortCircuit (o : EmailOracle) (s : PipeState)
    (hr : classifyFailure o.classifyR) :
    runPipeline true o s
      = { s with isJobRelated := some false,
                 processingStage := some ("finalizeResult") }
  ∧ (∀ o2 s2, runPipeline false o2 s2
      = { s2 with isJobRelated := some false,
                  errors := s2.errors
                    ++ ["Classification failed: WebLLM Worker not initialized"],
                  processingStage := some ("finalizeResult") }) := by
  have hfalse : WebLLMWorker.classify true o.classifyR = Except.ok false := by
    cases hcl : o.classifyR with
    | error e => simp [WebLLMWorker.classify]
    | ok v =>
        rw [hcl] at hr
        simp only [classifyFailure] at hr
        simp [WebLLMWorker.classify, beq_iff_eq, hr.1, hr.2]
  constructor
  · simp [runPipeline, classifyEmailNode, hfalse, optTruthy, finalizeResultNode]
  · intro o2 s2
    simp [runPipeline, classifyEmailNode, WebLLMWorker.classify, optTruthy,
      finalizeResultNode]

/-- Witness for classify_failSoft_shortCircuit at two concrete failures:
a rejected classify request and one that resolves to the lowercase
string "yes". -/
theorem classify_failSoft_shortCircuit_witness :
    (classifyFailure c6Oracle.classifyR ∧ classifyFailure c6OracleBad.classifyR)
  ∧ runPipeline true c6Oracle (initialState sampleEmail [])
      = { initialState sampleEmail [] with
          isJobRelated := some false,
          processingStage := some ("finalizeResult") }
  ∧ runPipeline true c6OracleBad (initialState sampleEmail [])
      = { initialState sampleEmail [] with
          isJobRelated := some false,
          processingStage := some ("finalizeResult") } :=
  ⟨⟨trivial, by simp [classifyFailure, c6OracleBad]⟩,
    (classify_failSoft_shortCircuit c6Oracle (initialState sampleEmail [])
      trivial).1,
    (classify_failSoft_shortCircuit c6OracleBad (initialState sampleEmail [])
      (by simp [classifyFailure, c6OracleBad])).1⟩

/-- Claim C3 counterexample: with a registry entry present, a rejected
status request makes the adapter return "pending", and the node appends
that "pending" to the matched entry history — the claim says no append
happens on a DetermineStatus failure. -/
theorem status_failure_appends_pending :
    (determineStatusNode true c3Oracle c3State).applicationStatus = some ("pending")
  ∧ (regGet (determineStatusNode true c3Oracle c3State).knownApplications
        ("Acme_Engineer")).map AppEntry.status_history
      = some (["applied", "pending"]) := by
  decide

/-- Claim C3 (amended): whenever the DetermineStatus step fails — the
status request is rejected, or it resolves to a non-string or to a
string outside the enumeration — the adapter fail-softs to "pending" and
the node records it exactly like a success: the outcome reports
"pending" and, when the email key has a registry entry, "pending" is
appended to that entry history and set as its current status.  The
no-append path occurs only when the adapter itself throws (worker not
initialized, giving outcome status "unknown", not "pending"): whenever
the adapter returns any status and the key has an entry, the history
grows by exactly one. -/
theorem determineStatus_failSoft_appends (o : EmailOracle) (s : PipeState)
    (ent : AppEntry)
    (hr : statusFailure o.statusR)
    (hj : s.jobData.truthy = true)
    (hent : regGet s.knownApplications (appKeyOf s.jobData) = some ent) :
    (determineStatusNode true o s).applicationStatus = some ("pending")
  ∧ regGet (determineStatusNode true o s).knownApplications (appKeyOf s.jobData)
      = some { ent with status_history := ent.status_history ++ ["pending"],
                        current_status := some ("pending") }
  ∧ (∀ o2 s2, (determineStatusNode false o2 s2).applicationStatus = some ("unknown")
      ∧ (determineStatusNode false o2 s2).knownApplications = s2.knownApplications)
  ∧ (∀ o3 s3 st ent3, WebLLMWorker.determineStatus true o3.statusR = Except.ok st →
      s3.jobData.truthy = true →
      regGet s3.knownApplications (appKeyOf s3.jobData) = some ent3 →
      (regGet (determineStatusNode true o3 s3).knownApplications
          (appKeyOf s3.jobData)).map (fun en => en.status_history.length)
        = some (ent3.status_history.length + 1)) := by
  have hpend : WebLLMWorker.determineStatus true o.statusR = Except.ok ("pending") := by
    cases hcl : o.statusR with
    | error e => simp [WebLLMWorker.determineStatus]
    | ok v =>
        rw [hcl] at hr
        cases v with
        | str t =>
            simp only [statusFailure] at hr
            simp [WebLLMWorker.determineStatus, hr]
        | bool b => simp [WebLLMWorker.determineStatus]
        | num n => simp [WebLLMWorker.determineStatus]
        | null => simp [WebLLMWorker.determineStatus]
        | obj j => simp [WebLLMWorker.determineStatus]
  refine ⟨?_, ?_, ?_, ?_⟩
  · simp [determineStatusNode, hpend]
  · simp [determineStatusNode, hpend, hj, hent, regGet_regSet_self]
  · intro o2 s2
    constructor <;> simp [determineStatusNode, WebLLMWorker.determineStatus]
  · intro o3 s3 st ent3 hok hj3 hent3
    simp [determineStatusNode, hok, hj3, hent3, regGet_regSet_self]

/-- Witness for determineStatus_failSoft_appends at two concrete failures
over a populated registry: a rejected status request and one resolving
to a string outside the enumeration. -/
theorem determineStatus_failSoft_appends_witness :
    (statusFailure c3Oracle.statusR ∧ statusFailure c3OracleBad.statusR
      ∧ c3State.jobData.truthy = true
      ∧ regGet c3State.knownApplications (appKeyOf c3State.jobData) = some c3Entry)
  ∧ regGet (determineStatusNode true c3Oracle c3State).knownApplications
        (appKeyOf c3State.jobData)
      = some { c3Entry with status_history := c3Entry.status_history ++ ["pending"],
                            current_status := some ("pending") }
  ∧ regGet (determineStatusNode true c3OracleBad c3State).knownApplications
        (appKeyOf c3State.jobData)
      = some { c3Entry with status_history := c3Entry.status_history ++ ["pending"],
                            current_status := some ("pending") } :=
  ⟨⟨trivial, by simp [statusFailure, c3OracleBad, WebLLMWorker.validStatuses],
      by decide, by decide⟩,
    (determineStatus_failSoft_appends c3Oracle c3State c3Entry
      trivial (by decide) (by decide)).2.1,
    (determineStatus_failSoft_appends c3OracleBad c3State c3Entry
      (by simp [statusFailure, c3OracleBad, WebLLMWorker.validStatuses])
      (by decide) (by decide)).2.1⟩

/-- Claim C2 (amended): two emails whose extracted records carry the
same raw, case-sensitive company and title — equivalently the same
application key, since the source normalizes nothing — passed through
checkFirstInstance in order: the first is marked first instance and
creates the entry with first_seen the email timestamp, status_history
["applied"] and email_count 1; the second is not first instance and the
entry email_count becomes 2.  Emails agreeing only up to case
normalization are not deduplicated (see the counterexample). -/
theorem checkFirstInstance_dedup (s1 s2 : PipeState) (j1 j2 : JSVal)
    (hc1 : jsStrTruthy j1.prop_company = true)
    (hc2 : jsStrTruthy j2.prop_company = true)
    (hkey : appKeyOf j2 = appKeyOf j1)
    (hj1 : s1.jobData = j1) (hj2 : s2.jobData = j2)
    (habs : regGet s1.knownApplications (appKeyOf j1) = none)
    (hreg : s2.knownApplications = (checkFirstInstanceNode s1).knownApplications) :
    (checkFirstInstanceNode s1).isFirstInstance = some true
  ∧ regGet (checkFirstInstanceNode s1).knownApplications (appKeyOf j1)
      = some { jobData := j1.asObj, first_seen := s1.email.date,
               status_history := ["applied"], email_count := 1,
               current_status := none }
  ∧ (checkFirstInstanceNode s2).isFirstInstance = some false
  ∧ (regGet (checkFirstInstanceNode s2).knownApplications (appKeyOf j1)).map
      AppEntry.email_count = some 2 := by
  have ht1 : j1.truthy = true := truthy_of_company j1 hc1
  have ht2 : j2.truthy = true := truthy_of_company j2 hc2
  have h1 : checkFirstInstanceNode s1
      = { s1 with isFirstInstance := some true,
                  knownApplications := regSet s1.knownApplications (appKeyOf j1)
                    { jobData := j1.asObj, first_seen := s1.email.date,
                      status_history := ["applied"], email_count := 1,
                      current_status := none },
                  processingStage := some ("determineStatus") } := by
    unfold checkFirstInstanceNode
    simp [hj1, ht1, hc1, habs]
  have hget1 : regGet (checkFirstInstanceNode s1).knownApplications (appKeyOf j1)
      = some { jobData := j1.asObj, first_seen := s1.email.date,
               status_history := ["applied"], email_count := 1,
               current_status := none } := by
    rw [h1]
    exact regGet_regSet_self _ _ _
  have hget2 : regGet s2.knownApplications (appKeyOf j2)
      = some { jobData := j1.asObj, first_seen := s1.email.date,
               status_history := ["applied"], email_count := 1,
               current_status := none } := by
    rw [hreg, hkey]
    exact hget1
  have h2 : checkFirstInstanceNode s2
      = { s2 with isFirstInstance := some false,
                  knownApplications := regSet s2.knownApplications (appKeyOf j2)
                    { jobData := j1.asObj, first_seen := s1.email.date,
                      status_history := ["applied"], email_count := 2,
                      current_status := none },
                  processingStage := some ("determineStatus") } := by
    unfold checkFirstInstanceNode
    simp [hj2, ht2, hc2, hget2]
  refine ⟨by rw [h1], hget1, by rw [h2], ?_⟩
  rw [h2]
  simp [hkey, regGet_regSet_self]

/-- Witness for checkFirstInstance_dedup on the concrete Acme/Engineer
record over an empty registry. -/
theorem checkFirstInstance_dedup_witness :
    (jsStrTruthy acmeJob.prop_company = true
      ∧ regGet c2State1.knownApplications (appKeyOf acmeJob) = none)
  ∧ ((checkFirstInstanceNode c2State1).isFirstInstance = some true
      ∧ (checkFirstInstanceNode c2State2).isFirstInstance = some false
      ∧ (regGet (checkFirstInstanceNode c2State2).knownApplications
            (appKeyOf acmeJob)).map AppEntry.email_count = some 2) := by
  have h := checkFirstInstance_dedup c2State1 c2State2 acmeJob acmeJob
    (by decide) (by decide) rfl rfl rfl (by decide) rfl
  exact ⟨⟨by decide, by decide⟩, h.1, h.2.2.1, h.2.2.2⟩

/-- Claim C2 counterexample: "Acme" and "ACME" carry the same normalized
(lowercased) company name, yet the second email is ALSO marked first
instance and gets its own fresh entry while the first entry stays at
email_count 1 — the source deduplicates on the raw key only, so the
claim fails on case-differing duplicates. -/
theorem checkFirstInstance_case_sensitive :
    ("Acme").toList.map Char.toLower = ("ACME").toList.map Char.toLower
  ∧ (checkFirstInstanceNode c2StateUpper).isFirstInstance = some true
  ∧ (regGet (checkFirstInstanceNode c2StateUpper).knownApplications
        ("Acme_Engineer")).map AppEntry.email_count = some 1
  ∧ (regGet (checkFirstInstanceNode c2StateUpper).knownApplications
        ("ACME_Engineer")).map AppEntry.email_count = some 1 := by
  decide

/-- The concrete scenario input list is already sorted by timestamp, so
the internal stable sort leaves it unchanged. -/
theorem acme_emails_sorted :
    [acmeEmail1, acmeEmail2].mergeSort (fun a b => decide (a.date ≤ b.date))
      = [acmeEmail1, acmeEmail2] :=
  List.mergeSort_of_sorted (by decide)

/-- Claim C5 counterexample: after the concrete Acme/Engineer run there is
no registry entry under the key acme_engineer — the source builds the key
with no case normalization. -/
theorem acme_scenario_no_lowercased_key :
    regGet (processEmailsChronologically true acmeOracle [] [acmeEmail1, acmeEmail2]).2
      ("acme_engineer") = none := by
  simp only [processEmailsChronologically, acme_emails_sorted]
  decide

/-- Claim C5 (amended): the key is the raw, case-sensitive concatenation
of company_name, an underscore and the title (or "unknown" for a falsy
title); in the concrete scenario the entry is stored under the key
Acme_Engineer with email_count 2 and status_history ["applied",
"applied", "interview_scheduled"] — entry creation seeds "applied" and
each successful determination appends one more — and the two outcomes
report is_first_instance true then false. -/
theorem acme_scenario_actual_registry :
    (processEmailsChronologically true acmeOracle [] [acmeEmail1, acmeEmail2]).2
      = [("Acme_Engineer",
          { jobData := { company_name := some ("Acme"),
                         job_title := some ("Engineer") },
            first_seen := 20240101,
            status_history := ["applied", "applied", "interview_scheduled"],
            email_count := 2,
            current_status := some ("interview_scheduled") })]
  ∧ (processEmailsChronologically true acmeOracle [] [acmeEmail1, acmeEmail2]).1.map
      ProcessingOutcome.isFirstInstance = [true, false] := by
  constructor <;> (simp only [processEmailsChronologically, acme_emails_sorted]; decide)

/-- Claim C4 counterexample: on the submission order [lateEmail,
earlyEmail] the driver returns outcomes in timestamp order, not in
submission order: the source re-sorts the input by timestamp inside the
batch driver. -/
theorem driver_resorts_input :
    (processEmailsChronologically true notJobOracle [] [lateEmail, earlyEmail]).1.map
        ProcessingOutcome.emailId = ["early", "late"]
  ∧ [lateEmail, earlyEmail].map EmailData.id = ["late", "early"] := by
  have hs : [lateEmail, earlyEmail].mergeSort (fun a b => decide (a.date ≤ b.date))
      = [earlyEmail, lateEmail] := by
    simp [List.mergeSort, lateEmail, earlyEmail]
  constructor
  · simp only [processEmailsChronologically, hs]
    decide
  · decide

/-- Claim C4 (amended): the driver re-sorts the input by timestamp
ascending with a stable sort before processing; on a caller-provided
timestamp-ascending list that sort is the identity, so emails are
processed, and registry mutations applied, in submission order. -/
theorem driver_sorted_input_submission_order (init : Bool)
    (oracle : EmailData → EmailOracle) (reg : Registry) (emails : List EmailData)
    (h : emails.Pairwise (fun a b => a.date ≤ b.date)) :
    processEmailsChronologically init oracle reg emails
      = processSorted init oracle reg emails
  ∧ (processEmailsChronologically init oracle reg emails).1.map
      ProcessingOutcome.emailId = emails.map EmailData.id := by
  have hs : emails.mergeSort (fun a b => decide (a.date ≤ b.date)) = emails :=
    List.mergeSort_of_sorted (h.imp (fun hab => decide_eq_true hab))
  constructor
  · simp only [processEmailsChronologically, hs]
  · simp only [processEmailsChronologically, hs]
    exact processSorted_map_emailId init oracle reg emails

/-- Witness for driver_sorted_input_submission_order on a concrete
ascending two-email list. -/
theorem driver_sorted_input_submission_order_witness :
    [earlyEmail, lateEmail].Pairwise (fun a b => a.date ≤ b.date)
  ∧ (processEmailsChronologically true notJobOracle [] [earlyEmail, lateEmail]).1.map
      ProcessingOutcome.emailId = [earlyEmail, lateEmail].map EmailData.id :=
  ⟨by decide,
    (driver_sorted_input_submission_order true notJobOracle [] [earlyEmail, lateEmail]
      (by decide)).2⟩

/-- Claim C7: the batch driver is a total function that returns exactly
one ProcessingOutcome per input email, whatever the channel behaviour:
the outcome list has the length of the input and carries the id of every
processed email in processing order, so no single email failure aborts
the run or drops an outcome, and each outcome carries the error list of
its own email. -/
theorem driver_outcome_per_email (init : Bool) (oracle : EmailData → EmailOracle)
    (reg : Registry) (emails : List EmailData) :
    (processEmailsChronologically init oracle reg emails).1.length = emails.length
  ∧ (processEmailsChronologically init oracle reg emails).1.map
      ProcessingOutcome.emailId
    = (emails.mergeSort (fun a b => decide (a.date ≤ b.date))).map EmailData.id := by
  have hm := processSorted_map_emailId init oracle reg
    (emails.mergeSort (fun a b => decide (a.date ≤ b.date)))
  constructor
  · have hlen := congrArg List.length hm
    simpa [processEmailsChronologically] using hlen
  · simpa [processEmailsChronologically] using hm

/-- The channel invariant holds along any fold of events whose dispatched
ids are fresh: pending ids stay distinct, and resolutions plus pending
occurrences balance dispatches, for every id. -/
theorem chanInv_foldl (tr : List ChanEvent) (s : ChanState) (ds : List String)
    (hinv : ChanInv s ds) (hnd : (ds ++ dispatches tr).Nodup) :
    ChanInv (tr.foldl chanStep s) (ds ++ dispatches tr) := by
  induction tr generalizing s ds with
  | nil => simpa [dispatches] using hinv
  | cons ev tr ih =>
    obtain ⟨hn, hc⟩ := hinv
    cases ev with
    | dispatch id =>
        have hds : ds ++ dispatches (ChanEvent.dispatch id :: tr)
            = (ds ++ [id]) ++ dispatches tr := by simp [dispatches]
        rw [hds] at hnd ⊢
        rw [List.foldl_cons]
        have hid : id ∉ ds := by
          intro hmem
          exact List.disjoint_of_nodup_append hnd.of_append_left hmem
            (List.mem_singleton_self id)
        have hcnt0 : ds.count id = 0 := List.count_eq_zero.mpr hid
        have hpend0 : s.pending.count id = 0 := by
          have := hc id
          omega
        have hpendnm : id ∉ s.pending := List.count_eq_zero.mp hpend0
        refine ih _ _ ⟨?_, ?_⟩ hnd
        · exact List.nodup_cons.mpr ⟨hpendnm, hn⟩
        · intro j
          have hthis := hc j
          simp only [resolutionCount] at hthis
          by_cases hj : j = id
          · subst hj
            have e1 : (j :: s.pending).count j = s.pending.count j + 1 := by
              simp [List.count_cons]
            have e2 : (ds ++ [j]).count j = ds.count j + 1 := by simp
            simp only [chanStep, resolutionCount]
            rw [e1, e2]
            omega
          · have e1 : (id :: s.pending).count j = s.pending.count j := by
              simp [List.count_cons, hj]
            have e2 : (ds ++ [id]).count j = ds.count j := by
              simp [List.count_append, List.count_cons, hj]
            simp only [chanStep, resolutionCount]
            rw [e1, e2]
            omega
    | respond id isErr =>
        have hds : ds ++ dispatches (ChanEvent.respond id isErr :: tr)
            = ds ++ dispatches tr := by simp [dispatches]
        rw [hds] at hnd ⊢
        rw [List.foldl_cons]
        by_cases hmem : id ∈ s.pending
        · refine ih _ _ ⟨?_, ?_⟩ hnd
          · simpa [chanStep, hmem] using hn.erase id
          · intro j
            have hthis := hc j
            simp only [resolutionCount] at hthis
            by_cases hj : j = id
            · subst hj
              have hone : s.pending.count j = 1 := List.count_eq_one_of_mem hn hmem
              simp only [chanStep, hmem, if_true, resolutionCount, List.countP_append,
                List.countP_cons, List.countP_nil, List.count_erase_self]
              simp only [beq_self_eq_true, if_true, hone]
              omega
            · have hne2 : id ≠ j := Ne.symm hj
              simp only [chanStep, hmem, if_true, resolutionCount, List.countP_append,
                List.countP_cons, List.countP_nil]
              rw [List.count_erase_of_ne hj]
              simp only [beq_iff_eq, hne2, if_false]
              omega
        · have hstep : chanStep s (ChanEvent.respond id isErr) = s := by
            simp [chanStep, hmem]
          rw [hstep]
          exact ih _ _ ⟨hn, hc⟩ hnd
    | timeoutFire id =>
        have hds : ds ++ dispatches (ChanEvent.timeoutFire id :: tr)
            = ds ++ dispatches tr := by simp [dispatches]
        rw [hds] at hnd ⊢
        rw [List.foldl_cons]
        by_cases hmem : id ∈ s.pending
        · refine ih _ _ ⟨?_, ?_⟩ hnd
          · simpa [chanStep, hmem] using hn.erase id
          · intro j
            have hthis := hc j
            simp only [resolutionCount] at hthis
            by_cases hj : j = id
            · subst hj
              have hone : s.pending.count j = 1 := List.count_eq_one_of_mem hn hmem
              simp only [chanStep, hmem, if_true, resolutionCount, List.countP_append,
                List.countP_cons, List.countP_nil, List.count_erase_self]
              simp only [beq_self_eq_true, if_true, hone]
              omega
            · have hne2 : id ≠ j := Ne.symm hj
              simp only [chanStep, hmem, if_true, resolutionCount, List.countP_append,
                List.countP_cons, List.countP_nil]
              rw [List.count_erase_of_ne hj]
              simp only [beq_iff_eq, hne2, if_false]
              omega
        · have hstep : chanStep s (ChanEvent.timeoutFire id) = s := by
            simp [chanStep, hmem]
          rw [hstep]
          exact ih _ _ ⟨hn, hc⟩ hnd
    | workerFatal =>
        have hds : ds ++ dispatches (ChanEvent.workerFatal :: tr)
            = ds ++ dispatches tr := by simp [dispatches]
        rw [hds] at hnd ⊢
        rw [List.foldl_cons]
        refine ih _ _ ⟨List.nodup_nil, ?_⟩ hnd
        intro j
        have hthis := hc j
        simp only [resolutionCount] at hthis
        have hmap : ((s.pending.map (fun id => (id, Resolution.error))).countP
            (fun p => p.1 == j)) = s.pending.count j := by
          rw [List.countP_map]
          rfl
        simp only [chanStep, resolutionCount, List.countP_append, List.count_nil]
        rw [hmap]
        omega

/-- Claim C1: over any event trace dispatching fresh correlation ids,
every id resolves at most once, and on a complete trace (empty final
pending table — the 60 second timeout guarantees every pending entry is
eventually resolved) every dispatched id resolves exactly once; a
response carrying an id with no pending entry leaves the table unchanged
(logged and discarded, nothing resolved, no crash); and after any
response for an id, that id is no longer in the pending table. -/
theorem rpc_correlation_exactly_once (tr : List ChanEvent)
    (hfresh : (dispatches tr).Nodup) :
    (∀ id, resolutionCount (chanRun tr) id ≤ 1)
  ∧ (∀ id, id ∈ dispatches tr → (chanRun tr).pending = [] →
      resolutionCount (chanRun tr) id = 1)
  ∧ (∀ s id isErr, id ∉ s.pending → chanStep s (ChanEvent.respond id isErr) = s)
  ∧ (∀ id isErr, id ∉ (chanStep (chanRun tr) (ChanEvent.respond id isErr)).pending) := by
  have hbase : ChanInv initChan [] :=
    ⟨List.nodup_nil, by intro id; simp [resolutionCount, initChan]⟩
  have hinv : ChanInv (chanRun tr) (dispatches tr) := by
    have h := chanInv_foldl tr initChan [] hbase (by simpa using hfresh)
    simpa [chanRun] using h
  obtain ⟨hn, hc⟩ := hinv
  refine ⟨?_, ?_, ?_, ?_⟩
  · intro id
    have h1 := hc id
    have h2 := List.nodup_iff_count_le_one.mp hfresh id
    omega
  · intro id hmem hpend
    have h1 := hc id
    rw [hpend] at h1
    have h2 := List.nodup_iff_count_le_one.mp hfresh id
    have h3 : 0 < (dispatches tr).count id := List.count_pos_iff.mpr hmem
    simp only [List.count_nil] at h1
    omega
  · intro s id isErr h
    simp [chanStep, h]
  · intro id isErr
    by_cases hmem : id ∈ (chanRun tr).pending
    · simp only [chanStep, hmem, if_true]
      intro hin
      exact ((hn.mem_erase_iff).mp hin).1 rfl
    · simp [chanStep, hmem]

/-- Witness for rpc_correlation_exactly_once on the concrete trace: id a
is resolved exactly once even though a duplicate response for it arrives
later. -/
theorem rpc_correlation_exactly_once_witness :
    (dispatches c1Trace).Nodup
  ∧ resolutionCount (chanRun c1Trace) ("a") = 1 :=
  ⟨by decide,
    (rpc_correlation_exactly_once c1Trace (by decide)).2.1 ("a") (by decide) (by decide)⟩

end TrackMyJobs
